import Mathlib

/-!
Verification of the gamepad-navigation plugin core: the combination codec
(src/gamepad.js), the shortcut registry (gamepad_shortcut_registry.js), the
input monitor (gamepad_monitor.js) and the clipboard shortcuts of the
navigation controller (navigation_controller.js).

JavaScript strings are embedded as lists of characters (`JsStr`); JS `Map`s
are embedded as insertion-ordered association lists and JS `Set`s as
insertion-ordered duplicate-free lists, which matches the iteration order
the source relies on.
-/

/-- A JavaScript string, embedded as its list of UTF-16 code units.  All the
strings handled by the plugin are ASCII, so `Char` comparison coincides with
the JS code-unit comparison. -/
abbrev JsStr := List Char

/-- Shorthand turning a Lean string literal into a `JsStr`. -/
def js (s : String) : JsStr := s.toList

/-- JS `Set.prototype.add`: appends the element unless it is already present
(JS sets keep insertion order). -/
def setAdd (l : List JsStr) (x : JsStr) : List JsStr :=
  if x ∈ l then l else l ++ [x]

/-- JS `new Set(array)`: insert every element in order, dropping duplicates. -/
def jsSetFromList (l : List JsStr) : List JsStr :=
  l.foldl setAdd []

/-- JS `Map.prototype.get` (keys are unique in every map the plugin builds). -/
def mapGet {α : Type} : List (JsStr × α) → JsStr → Option α
  | [], _ => none
  | (k, v) :: rest, key => if k = key then some v else mapGet rest key

/-- JS `Map.prototype.has`. -/
def mapHas {α : Type} (m : List (JsStr × α)) (key : JsStr) : Bool :=
  (mapGet m key).isSome

/-- JS `Map.prototype.set`: replace the value in place if the key exists,
otherwise append a new entry. -/
def mapSet {α : Type} : List (JsStr × α) → JsStr → α → List (JsStr × α)
  | [], key, v => [(key, v)]
  | (k, w) :: rest, key, v =>
    if k = key then (key, v) :: rest else (k, w) :: mapSet rest key v

/-- JS `Map.prototype.delete` (ignoring the returned Boolean). -/
def mapDelete {α : Type} : List (JsStr × α) → JsStr → List (JsStr × α)
  | [], _ => []
  | (k, w) :: rest, key =>
    if k = key then rest else (k, w) :: mapDelete rest key

/-- JS `array.join('+')`. -/
def joinPlus : List JsStr → JsStr
  | [] => []
  | [t] => t
  | t :: ts => t ++ '+' :: joinPlus ts

/-- JS `string.split('+')`: cut at every occurrence of the plus character.
Splitting the empty string yields a single empty token, exactly as in JS. -/
def splitPlus : JsStr → List JsStr
  | [] => [[]]
  | c :: cs =>
    if c = '+' then [] :: splitPlus cs
    else (c :: (splitPlus cs).headD []) :: (splitPlus cs).tail

/-- The default JS string comparison used by `Array.prototype.sort()`:
lexicographic on code units. -/
def tokLe : JsStr → JsStr → Bool
  | [], _ => true
  | _ :: _, [] => false
  | a :: as, b :: bs =>
    if a < b then true else if b < a then false else tokLe as bs

/-- The sort relation of `Array.prototype.sort()`, as a proposition. -/
def TokLe (a b : JsStr) : Prop := tokLe a b = true

instance : DecidableRel TokLe := fun a b => instDecidableEqBool (tokLe a b) true

instance : IsTotal JsStr TokLe where
  total := by
    intro a
    induction a with
    | nil => intro b; left; rfl
    | cons c cs ih =>
      intro b
      cases b with
      | nil => right; rfl
      | cons d ds =>
        rcases lt_trichotomy c d with h | h | h
        · left; simp [TokLe, tokLe, h]
        · subst h
          rcases ih ds with h' | h' <;> [left; right] <;>
            simpa [TokLe, tokLe, lt_irrefl] using h'
        · right; simp [TokLe, tokLe, h]

instance : IsTrans JsStr TokLe where
  trans := by
    intro a
    induction a with
    | nil => intro b c _ _; rfl
    | cons x xs ih =>
      intro b c hab hbc
      cases b with
      | nil => exact absurd hab (by simp [TokLe, tokLe])
      | cons y ys =>
        cases c with
        | nil => exact absurd hbc (by simp [TokLe, tokLe])
        | cons z zs =>
          simp only [TokLe, tokLe] at hab hbc ⊢
          rcases lt_trichotomy x y with hxy | hxy | hxy
          · rcases lt_trichotomy y z with hyz | hyz | hyz
            · rw [if_pos (lt_trans hxy hyz)]
            · subst hyz; rw [if_pos hxy]
            · exfalso
              rw [if_neg (not_lt_of_lt hyz), if_pos hyz] at hbc
              exact Bool.false_ne_true hbc
          · subst hxy
            rw [if_neg (lt_irrefl x), if_neg (lt_irrefl x)] at hab
            rcases lt_trichotomy x z with hxz | hxz | hxz
            · rw [if_pos hxz]
            · subst hxz
              rw [if_neg (lt_irrefl x), if_neg (lt_irrefl x)] at hbc ⊢
              exact ih ys zs hab hbc
            · exfalso
              rw [if_neg (not_lt_of_lt hxz), if_pos hxz] at hbc
              exact Bool.false_ne_true hbc
          · exfalso
            rw [if_neg (not_lt_of_lt hxy), if_pos hxy] at hab
            exact Bool.false_ne_true hab

instance : IsAntisymm JsStr TokLe where
  antisymm := by
    intro a
    induction a with
    | nil =>
      intro b _ hba
      cases b with
      | nil => rfl
      | cons d ds => exact absurd hba (by simp [TokLe, tokLe])
    | cons c cs ih =>
      intro b hab hba
      cases b with
      | nil => exact absurd hab (by simp [TokLe, tokLe])
      | cons d ds =>
        simp only [TokLe, tokLe] at hab hba
        rcases lt_trichotomy c d with h | h | h
        · simp [not_lt_of_lt h, h] at hba
        · subst h
          simp only [lt_irrefl, if_false] at hab hba
          exact congrArg₂ List.cons rfl (ih ds hab hba)
        · simp [not_lt_of_lt h, h] at hab

/-- `Array.from(tokens).sort()`: the canonical sorted order of a token list. -/
def sortTokens (l : List JsStr) : List JsStr := l.insertionSort TokLe

/-! The button and axis enumerations of src/gamepad.js. -/

namespace GamepadButtonType

def CROSS : JsStr := js "cross"

def CIRCLE : JsStr := js "circle"

def SQUARE : JsStr := js "square"

def TRIANGLE : JsStr := js "triangle"

def L1 : JsStr := js "l1"

def R1 : JsStr := js "r1"

def L2 : JsStr := js "l2"

def R2 : JsStr := js "r2"

def SELECT : JsStr := js "select"

def START : JsStr := js "start"

def LEFT_STICK : JsStr := js "left_stick"

def RIGHT_STICK : JsStr := js "right_stick"

def UP : JsStr := js "up"

def DOWN : JsStr := js "down"

def LEFT : JsStr := js "left"

def RIGHT : JsStr := js "right"

end GamepadButtonType

/-- All possible buttons (the `Object.values` of the enumeration). -/
def ALL_BUTTONS : List JsStr :=
  [GamepadButtonType.CROSS, GamepadButtonType.CIRCLE, GamepadButtonType.SQUARE,
   GamepadButtonType.TRIANGLE, GamepadButtonType.L1, GamepadButtonType.R1,
   GamepadButtonType.L2, GamepadButtonType.R2, GamepadButtonType.SELECT,
   GamepadButtonType.START, GamepadButtonType.LEFT_STICK,
   GamepadButtonType.RIGHT_STICK, GamepadButtonType.UP, GamepadButtonType.DOWN,
   GamepadButtonType.LEFT, GamepadButtonType.RIGHT]

/-- The fixed button-to-slot table of src/gamepad.js. -/
def GAMEPAD_BUTTON_TO_INDEX : List (JsStr × Nat) :=
  [(GamepadButtonType.CROSS, 0), (GamepadButtonType.CIRCLE, 1),
   (GamepadButtonType.SQUARE, 2), (GamepadButtonType.TRIANGLE, 3),
   (GamepadButtonType.L1, 4), (GamepadButtonType.R1, 5),
   (GamepadButtonType.L2, 6), (GamepadButtonType.R2, 7),
   (GamepadButtonType.SELECT, 8), (GamepadButtonType.START, 9),
   (GamepadButtonType.LEFT_STICK, 10), (GamepadButtonType.RIGHT_STICK, 11),
   (GamepadButtonType.UP, 12), (GamepadButtonType.DOWN, 13),
   (GamepadButtonType.LEFT, 14), (GamepadButtonType.RIGHT, 15)]

namespace GamepadAxisType

def LEFT_HORIZONTAL_LEFT : JsStr := js "left_horizontal_left"

def LEFT_HORIZONTAL_RIGHT : JsStr := js "left_horizontal_right"

def LEFT_VERTICAL_UP : JsStr := js "left_vertical_up"

def LEFT_VERTICAL_DOWN : JsStr := js "left_vertical_down"

def RIGHT_HORIZONTAL_LEFT : JsStr := js "right_horizontal_left"

def RIGHT_HORIZONTAL_RIGHT : JsStr := js "right_horizontal_right"

def RIGHT_VERTICAL_UP : JsStr := js "right_vertical_up"

def RIGHT_VERTICAL_DOWN : JsStr := js "right_vertical_down"

end GamepadAxisType

/-- All possible axes (the `Object.values` of the enumeration). -/
def ALL_AXES : List JsStr :=
  [GamepadAxisType.LEFT_HORIZONTAL_LEFT, GamepadAxisType.LEFT_HORIZONTAL_RIGHT,
   GamepadAxisType.LEFT_VERTICAL_UP, GamepadAxisType.LEFT_VERTICAL_DOWN,
   GamepadAxisType.RIGHT_HORIZONTAL_LEFT,
   GamepadAxisType.RIGHT_HORIZONTAL_RIGHT, GamepadAxisType.RIGHT_VERTICAL_UP,
   GamepadAxisType.RIGHT_VERTICAL_DOWN]

/-- The fixed axis-direction-to-slot table of src/gamepad.js. -/
def GAMEPAD_AXIS_TO_INDEX : List (JsStr × Nat) :=
  [(GamepadAxisType.LEFT_HORIZONTAL_LEFT, 0),
   (GamepadAxisType.LEFT_HORIZONTAL_RIGHT, 0),
   (GamepadAxisType.LEFT_VERTICAL_UP, 1),
   (GamepadAxisType.LEFT_VERTICAL_DOWN, 1),
   (GamepadAxisType.RIGHT_HORIZONTAL_LEFT, 2),
   (GamepadAxisType.RIGHT_HORIZONTAL_RIGHT, 2),
   (GamepadAxisType.RIGHT_VERTICAL_UP, 3),
   (GamepadAxisType.RIGHT_VERTICAL_DOWN, 3)]

/-- A combination of buttons and axis directions (class GamepadCombination of
src/gamepad.js).  The field is the JS `Set` holding the tokens, in insertion
order. -/
structure GamepadCombination where
  combination : List JsStr
deriving DecidableEq

namespace GamepadCombination

/-- `new GamepadCombination()`. -/
def empty : GamepadCombination := ⟨[]⟩

/-- `addButton`: adds a button token to the set (idempotent). -/
def addButton (c : GamepadCombination) (button : JsStr) : GamepadCombination :=
  ⟨setAdd c.combination button⟩

/-- `addAxis`: adds an axis-direction token to the set (idempotent). -/
def addAxis (c : GamepadCombination) (axis : JsStr) : GamepadCombination :=
  ⟨setAdd c.combination axis⟩

/-- `serialize()`: sort the tokens and join them with the plus delimiter. -/
def serialize (c : GamepadCombination) : JsStr :=
  joinPlus (sortTokens c.combination)

/-- `isEmpty()`. -/
def isEmpty (c : GamepadCombination) : Bool :=
  c.combination.length == 0

/-- `deserialize(serialization)`: split on the delimiter, fail on the first
token outside the two enumerations (the JS loop throws there), then build the
set from the sorted sequence. -/
def deserialize (serialization : JsStr) : Except JsStr GamepadCombination :=
  let sequence := splitPlus serialization
  match sequence.find? (fun t => !(decide (t ∈ ALL_BUTTONS ∨ t ∈ ALL_AXES))) with
  | some bad => .error bad
  | none => .ok ⟨jsSetFromList (sortTokens sequence)⟩

/-- `fromSingleButton`. -/
def fromSingleButton (button : JsStr) : GamepadCombination :=
  empty.addButton button

/-- `fromSingleAxis`. -/
def fromSingleAxis (axis : JsStr) : GamepadCombination :=
  empty.addAxis axis

def LEFT_STICK_UP : GamepadCombination :=
  fromSingleAxis GamepadAxisType.LEFT_VERTICAL_UP

def LEFT_STICK_DOWN : GamepadCombination :=
  fromSingleAxis GamepadAxisType.LEFT_VERTICAL_DOWN

def LEFT_STICK_LEFT : GamepadCombination :=
  fromSingleAxis GamepadAxisType.LEFT_HORIZONTAL_LEFT

def LEFT_STICK_RIGHT : GamepadCombination :=
  fromSingleAxis GamepadAxisType.LEFT_HORIZONTAL_RIGHT

def CROSS : GamepadCombination := fromSingleButton GamepadButtonType.CROSS

def CIRCLE : GamepadCombination := fromSingleButton GamepadButtonType.CIRCLE

def TRIANGLE : GamepadCombination :=
  fromSingleButton GamepadButtonType.TRIANGLE

def UP : GamepadCombination := fromSingleButton GamepadButtonType.UP

def DOWN : GamepadCombination := fromSingleButton GamepadButtonType.DOWN

def LEFT : GamepadCombination := fromSingleButton GamepadButtonType.LEFT

def RIGHT : GamepadCombination := fromSingleButton GamepadButtonType.RIGHT

def SELECT : GamepadCombination := fromSingleButton GamepadButtonType.SELECT

def L1 : GamepadCombination := fromSingleButton GamepadButtonType.L1

def R1 : GamepadCombination := fromSingleButton GamepadButtonType.R1

end GamepadCombination

/-- The union of the two token enumerations. -/
def allTokens : List JsStr := ALL_BUTTONS ++ ALL_AXES

/-- Combinations producible by the codec: a duplicate-free set of tokens drawn
from the two enumerations.  Every value built with `addButton`/`addAxis` from
members of the enumerations satisfies this. -/
def WellFormedCombination (c : GamepadCombination) : Prop :=
  c.combination.Nodup ∧ ∀ t ∈ c.combination, t ∈ allTokens

instance (c : GamepadCombination) : Decidable (WellFormedCombination c) := by
  unfold WellFormedCombination
  infer_instance

/-! The shortcut registry of gamepad_shortcut_registry.js, parameterized by
the type of sessions (Blockly workspaces in the source). -/

/-- A gamepad shortcut (the GamepadShortcut typedef).  The callback returns
the JS value it produces: `none` models returning undefined, `some b` models
returning the Boolean b. -/
structure GamepadShortcut (σ : Type) where
  name : JsStr
  preconditionFn : Option (σ → Bool) := none
  callback : Option (σ → Option Bool) := none

/-- The two maps owned by GamepadShortcutRegistry. -/
structure GamepadShortcutRegistry (σ : Type) where
  registry : List (JsStr × GamepadShortcut σ)
  combinationMap : List (JsStr × List JsStr)

namespace GamepadShortcutRegistry

/-- `register(shortcut, optAllowOverrides)`: error on a duplicate name unless
overrides are allowed, otherwise insert or replace. -/
def register {σ : Type} (reg : GamepadShortcutRegistry σ)
    (shortcut : GamepadShortcut σ) (optAllowOverrides : Bool) :
    Except Unit (GamepadShortcutRegistry σ) :=
  if mapHas reg.registry shortcut.name && !optAllowOverrides then
    .error ()
  else
    .ok { reg with registry := mapSet reg.registry shortcut.name shortcut }

/-- `addCombinationMapping(combination, shortcutName, optAllowCollision)`.
The error value carries the set of shortcut names already mapped to the
combination (the names interpolated into the thrown message). -/
def addCombinationMapping {σ : Type} (reg : GamepadShortcutRegistry σ)
    (combination : GamepadCombination) (shortcutName : JsStr)
    (optAllowCollision : Bool) :
    Except (List JsStr) (GamepadShortcutRegistry σ) :=
  let serializedCombination := combination.serialize
  if mapHas reg.combinationMap serializedCombination && !optAllowCollision then
    .error ((mapGet reg.combinationMap serializedCombination).getD [])
  else if mapHas reg.combinationMap serializedCombination &&
      optAllowCollision then
    let grown :=
      setAdd ((mapGet reg.combinationMap serializedCombination).getD [])
        shortcutName
    let m := mapSet reg.combinationMap serializedCombination grown
    .ok { reg with combinationMap := m }
  else
    let m := mapSet reg.combinationMap serializedCombination [shortcutName]
    .ok { reg with combinationMap := m }

/-- `removeCombinationMapping(combination, shortcutName, optQuiet)`.  Returns
the JS Boolean result, the updated registry and whether a console warning was
emitted.  Note the membership test of the source at the third step: it asks
the set of shortcut names whether it contains the *serialized combination*
string. -/
def removeCombinationMapping {σ : Type} (reg : GamepadShortcutRegistry σ)
    (combination : GamepadCombination) (shortcutName : JsStr)
    (optQuiet : Bool) :
    Bool × GamepadShortcutRegistry σ × Bool :=
  let serializedCombination := combination.serialize
  match mapGet reg.combinationMap serializedCombination with
  | none => (false, reg, !optQuiet)
  | some shortcutNames =>
    if shortcutNames.length = 0 then
      (false,
        { reg with
          combinationMap := mapDelete reg.combinationMap
            serializedCombination },
        !optQuiet)
    else if serializedCombination ∉ shortcutNames then
      (false, reg, !optQuiet)
    else
      let shortcutNames' := shortcutNames.erase shortcutName
      if shortcutNames'.length = 0 then
        (true,
          { reg with
            combinationMap := mapDelete reg.combinationMap
              serializedCombination },
          false)
      else
        (true,
          { reg with
            combinationMap := mapSet reg.combinationMap serializedCombination
              shortcutNames' },
          false)

/-- `getShortcutNamesByCombination(combination)`. -/
def getShortcutNamesByCombination {σ : Type}
    (reg : GamepadShortcutRegistry σ) (combination : GamepadCombination) :
    List JsStr :=
  match mapGet reg.combinationMap combination.serialize with
  | none => []
  | some names => names

/-- The loop body of `onActivate`, walking the shortcut names bound to the
combination.  The Boolean result mirrors the source exactly; the name list is
ghost instrumentation recording, in order, the shortcuts whose callback was
invoked (used to state the dispatch claims). -/
def onActivateGo {σ : Type} (reg : GamepadShortcutRegistry σ) (workspace : σ) :
    List JsStr → Bool × List JsStr
  | [] => (false, [])
  | shortcutName :: rest =>
    match mapGet reg.registry shortcutName with
    | none => onActivateGo reg workspace rest
    | some shortcut =>
      match shortcut.preconditionFn with
      | some preconditionFn =>
        if !preconditionFn workspace then onActivateGo reg workspace rest
        else
          match shortcut.callback with
          | none => onActivateGo reg workspace rest
          | some callback =>
            if callback workspace = some true then (true, [shortcutName])
            else
              let r := onActivateGo reg workspace rest
              (r.1, shortcutName :: r.2)
      | none =>
        match shortcut.callback with
        | none => onActivateGo reg workspace rest
        | some callback =>
          if callback workspace = some true then (true, [shortcutName])
          else
            let r := onActivateGo reg workspace rest
            (r.1, shortcutName :: r.2)

/-- `onActivate(workspace, combination)`: empty combinations are rejected
immediately, otherwise the names bound to the exact serialized combination
are tried in order. -/
def onActivate {σ : Type} (reg : GamepadShortcutRegistry σ) (workspace : σ)
    (combination : GamepadCombination) : Bool × List JsStr :=
  if combination.isEmpty then (false, [])
  else onActivateGo reg workspace
    (getShortcutNamesByCombination reg combination)

end GamepadShortcutRegistry

/-- Of one bound shortcut name, the callback a dispatch would reach: none
when the name is not registered, the precondition fails, or there is no
callback. -/
def eligibleEntry {σ : Type} (reg : GamepadShortcutRegistry σ)
    (workspace : σ) (shortcutName : JsStr) :
    Option (JsStr × (σ → Option Bool)) :=
  match mapGet reg.registry shortcutName with
  | none => none
  | some shortcut =>
    match shortcut.preconditionFn with
    | some preconditionFn =>
      if !preconditionFn workspace then none
      else shortcut.callback.map fun cb => (shortcutName, cb)
    | none => shortcut.callback.map fun cb => (shortcutName, cb)

/-- The candidate callbacks of a name list, in order. -/
def eligibleOf {σ : Type} (reg : GamepadShortcutRegistry σ) (workspace : σ)
    (names : List JsStr) : List (JsStr × (σ → Option Bool)) :=
  names.filterMap (eligibleEntry reg workspace)

/-- The candidate callbacks of a dispatch, in bound order: names mapped to
the exact serialized combination that are registered, whose precondition is
absent or passes, and that carry a callback.  Used to specify the dispatch
order of onActivate. -/
def eligibleCallbacks {σ : Type} (reg : GamepadShortcutRegistry σ)
    (workspace : σ) (combination : GamepadCombination) :
    List (JsStr × (σ → Option Bool)) :=
  eligibleOf reg workspace
    (GamepadShortcutRegistry.getShortcutNamesByCombination reg combination)

/-- Whether an eligible callback handles the activation: it returns the JS
value true (`some true`), the only truthy result a Boolean-or-undefined
callback can produce. -/
def callbackHandled {σ : Type} (workspace : σ)
    (entry : JsStr × (σ → Option Bool)) : Bool :=
  entry.2 workspace == some true

/-! The input monitor of gamepad_monitor.js. -/

/-- The raw per-frame state of one controller: pressed flags by button slot
and signed axis values by axis slot. -/
structure Gamepad where
  buttons : Nat → Bool
  axes : Nat → ℚ

def DEFAULT_DELAY_BETWEEN_COMBINATIONS_MILLISECONDS : ℤ := 200

/- The JS literal 0.4, exact as a rational. -/
def DEFAULT_AXIS_ACTIVATION_THRESHOLD : ℚ := Rat.divInt 2 5

/-- `getAxisValue_(gamepad, gamepadAxis)`. -/
def getAxisValue (gamepad : Gamepad) (gamepadAxis : JsStr) : ℚ :=
  gamepad.axes ((mapGet GAMEPAD_AXIS_TO_INDEX gamepadAxis).getD 0)

/-- The button loop of `currentCombination_`: walk the button-to-slot table
and add every token whose slot reports pressed. -/
def buttonScan (gamepad : Gamepad) :
    List (JsStr × Nat) → GamepadCombination → GamepadCombination
  | [], c => c
  | (gamepadButton, index) :: rest, c =>
    if gamepad.buttons index then
      buttonScan gamepad rest (c.addButton gamepadButton)
    else buttonScan gamepad rest c

/-- `currentCombination_(gamepad)`: buttons from the slot table, then the
eight axis-direction checks against the activation threshold, in source
order. -/
def currentCombination (axisActivationThreshold : ℚ) (gamepad : Gamepad) :
    GamepadCombination :=
  let c0 := buttonScan gamepad GAMEPAD_BUTTON_TO_INDEX GamepadCombination.empty
  let c1 :=
    if getAxisValue gamepad GamepadAxisType.LEFT_HORIZONTAL_LEFT <
        -axisActivationThreshold then
      c0.addAxis GamepadAxisType.LEFT_HORIZONTAL_LEFT
    else c0
  let c2 :=
    if getAxisValue gamepad GamepadAxisType.LEFT_HORIZONTAL_RIGHT >
        axisActivationThreshold then
      c1.addAxis GamepadAxisType.LEFT_HORIZONTAL_RIGHT
    else c1
  let c3 :=
    if getAxisValue gamepad GamepadAxisType.LEFT_VERTICAL_UP <
        -axisActivationThreshold then
      c2.addAxis GamepadAxisType.LEFT_VERTICAL_UP
    else c2
  let c4 :=
    if getAxisValue gamepad GamepadAxisType.LEFT_VERTICAL_DOWN >
        axisActivationThreshold then
      c3.addAxis GamepadAxisType.LEFT_VERTICAL_DOWN
    else c3
  let c5 :=
    if getAxisValue gamepad GamepadAxisType.RIGHT_HORIZONTAL_LEFT <
        -axisActivationThreshold then
      c4.addAxis GamepadAxisType.RIGHT_HORIZONTAL_LEFT
    else c4
  let c6 :=
    if getAxisValue gamepad GamepadAxisType.RIGHT_HORIZONTAL_RIGHT >
        axisActivationThreshold then
      c5.addAxis GamepadAxisType.RIGHT_HORIZONTAL_RIGHT
    else c5
  let c7 :=
    if getAxisValue gamepad GamepadAxisType.RIGHT_VERTICAL_UP <
        -axisActivationThreshold then
      c6.addAxis GamepadAxisType.RIGHT_VERTICAL_UP
    else c6
  let c8 :=
    if getAxisValue gamepad GamepadAxisType.RIGHT_VERTICAL_DOWN >
        axisActivationThreshold then
      c7.addAxis GamepadAxisType.RIGHT_VERTICAL_DOWN
    else c7
  c8

/-- The state of a GamepadMonitor.  `timeSinceLastCommandHandled = none`
models the initial `Number.NEGATIVE_INFINITY`. -/
structure GamepadMonitor (σ : Type) where
  registry : GamepadShortcutRegistry σ
  connectedGamepadIndexes : List Nat
  delayBetweenCombinations : ℤ
  axisActivationThreshold : ℚ
  timeSinceLastCommandHandled : Option ℤ
  workspaces : List σ
  disposed : Bool

/-- The dispatch part of one animation-frame tick: for every connected
controller build the combination, then activate it on every tracked
workspace, OR-ing the results.  The name list concatenates the ghost
invocation traces of the onActivate calls. -/
def dispatchGamepads {σ : Type} (reg : GamepadShortcutRegistry σ)
    (axisActivationThreshold : ℚ) (workspaces : List σ)
    (connected : List Nat) (gamepads : Nat → Gamepad) : Bool × List JsStr :=
  connected.foldl
    (fun acc gamepadIndex =>
      let combination :=
        currentCombination axisActivationThreshold (gamepads gamepadIndex)
      workspaces.foldl
        (fun acc2 workspace =>
          let r := GamepadShortcutRegistry.onActivate reg workspace combination
          (r.1 || acc2.1, acc2.2 ++ r.2))
        acc)
    (false, [])

/-- `handleAnimationFrame_(timestamp)` as a state transition; the second
component records the callbacks invoked during the tick.  The debounce
comparison reproduces source line 186: it tests the elapsed time against the
module constant DEFAULT_DELAY_BETWEEN_COMBINATIONS_MILLISECONDS, not against
the stored `delayBetweenCombinations` field. -/
def handleAnimationFrame {σ : Type} (m : GamepadMonitor σ) (timestamp : ℚ)
    (gamepads : Nat → Gamepad) : GamepadMonitor σ × List JsStr :=
  if m.disposed then (m, [])
  else if m.connectedGamepadIndexes.length = 0 then (m, [])
  else
    let debounced :=
      match m.timeSinceLastCommandHandled with
      | none => false
      | some t =>
        decide (Rat.floor timestamp - t ≤ DEFAULT_DELAY_BETWEEN_COMBINATIONS_MILLISECONDS)
    if debounced then (m, [])
    else
      let r := dispatchGamepads m.registry m.axisActivationThreshold
        m.workspaces m.connectedGamepadIndexes gamepads
      if r.1 then
        ({ m with timeSinceLastCommandHandled := some (Rat.floor timestamp) }, r.2)
      else (m, r.2)

/-! The navigation-controller slice relevant to the clipboard shortcuts
(navigation_controller.js) and the per-session accessibility flag
(accessibility_status.js). -/

/-- The slice of a Blockly block visible to the clipboard shortcuts. -/
structure BlockModel where
  id : JsStr
  deletable : Bool := true
  movable : Bool := true
  inFlyout : Bool := false
  nextSibling : Option JsStr := none
  parent : Option JsStr := none
deriving DecidableEq

/-- The slice of an AST node visible to the clipboard shortcuts. -/
structure NodeModel where
  sourceBlock : Option BlockModel
deriving DecidableEq

/-- A tracked session (a Blockly workspace): its id, read-only flag, the node
under the cursor and whether a drag gesture is in progress (ambient
`Blockly.Gesture.inProgress()` at the moment of the activation). -/
structure NavSession where
  id : JsStr
  readOnly : Bool := false
  curNode : Option NodeModel := none
  gestureInProgress : Bool := false
deriving DecidableEq

/-- The AccessibilityStatus class: the set of workspace ids with gamepad
accessibility enabled. -/
structure AccessibilityStatus where
  enabledWorkspaceIds : List JsStr
deriving DecidableEq

/-- `isGamepadAccessibilityEnabled(workspace)`. -/
def isGamepadAccessibilityEnabled (status : AccessibilityStatus)
    (workspace : NavSession) : Bool :=
  decide (workspace.id ∈ status.enabledWorkspaceIds)

/-- The precondition of the `previous` shortcut (registerPrevious): exactly
the accessibility flag of the session. -/
def previousPreconditionFn (status : AccessibilityStatus)
    (workspace : NavSession) : Bool :=
  isGamepadAccessibilityEnabled status workspace

/-- Where the cursor is placed by the delete policy. -/
inductive CursorLoc where
  | nextSiblingConnection (blockId : JsStr)
  | parentBlock (blockId : JsStr)
  | workspacePosition
deriving DecidableEq

/-- The editor calls a clipboard callback performs, in order. -/
inductive EditorAction where
  | hideChaff
  | copyBlock (blockId : JsStr)
  | setCursor (loc : CursorLoc)
  | removeBlock (blockId : JsStr)
deriving DecidableEq

/-- Modelled from the spec: `Navigation.moveCursorOnBlockDelete` lives in
navigation.js, which is not among the repository files under src/ (only its
callers in navigation_controller.js and its tests are).  Spec section 4.4:
if the deleted node has a next-sibling connection, move there; else if it
has a parent, move to the parent; else fall back to a bare workspace-level
cursor position. -/
def moveCursorOnBlockDelete (sourceBlock : BlockModel) : CursorLoc :=
  match sourceBlock.nextSibling with
  | some siblingId => .nextSiblingConnection siblingId
  | none =>
    match sourceBlock.parent with
    | some parentId => .parentBlock parentId
    | none => .workspacePosition

/-- `workspace.getCursor().getCurNode()` followed by `getSourceBlock()`. -/
def curBlockOf (workspace : NavSession) : Option BlockModel :=
  match workspace.curNode with
  | none => none
  | some node => node.sourceBlock

/-- The precondition of the copy shortcut (registerCopy). -/
def copyPreconditionFn (status : AccessibilityStatus)
    (workspace : NavSession) : Bool :=
  if isGamepadAccessibilityEnabled status workspace && !workspace.readOnly then
    match curBlockOf workspace with
    | some sourceBlock =>
      !workspace.gestureInProgress && sourceBlock.deletable &&
        sourceBlock.movable
    | none => false
  else false

/-- The callback of the copy shortcut (registerCopy): hide the chaff, copy
the block, and fall off the end without a return statement, so the JS result
is undefined (`none`).  The none branch of the block lookup is unreachable
under the precondition (the JS would throw there). -/
def copyCallback (workspace : NavSession) : Option Bool × List EditorAction :=
  match curBlockOf workspace with
  | some sourceBlock =>
    (none, [.hideChaff, .copyBlock sourceBlock.id])
  | none => (none, [])

/-- The callback of the delete shortcut (registerDelete): refuse while a
gesture is in progress, otherwise relocate the cursor and only then remove
the block. -/
def deleteCallback (workspace : NavSession) :
    Option Bool × List EditorAction :=
  match curBlockOf workspace with
  | some sourceBlock =>
    if workspace.gestureInProgress then (some false, [])
    else
      (some true,
        [.setCursor (moveCursorOnBlockDelete sourceBlock),
         .removeBlock sourceBlock.id])
  | none => (none, [])

/-- The callback of the cut shortcut (registerCut): copy, relocate the
cursor, then remove the block. -/
def cutCallback (workspace : NavSession) : Option Bool × List EditorAction :=
  match curBlockOf workspace with
  | some sourceBlock =>
    (some true,
      [.copyBlock sourceBlock.id,
       .setCursor (moveCursorOnBlockDelete sourceBlock),
       .removeBlock sourceBlock.id])
  | none => (none, [])

/-! The shortcut names of constants.js used by the claims. -/

namespace SHORTCUT_NAMES

def PREVIOUS : JsStr := js "previous"

def MARK : JsStr := js "mark"

def COPY : JsStr := js "gamepad_nav_copy"

def CUT : JsStr := js "gamepad_nav_cut"

def DELETE : JsStr := js "gamepad_nav_delete"

end SHORTCUT_NAMES

/-! Concrete fixtures used to witness the claims on small inputs. -/

/-- The pair combination of the default toggle binding. -/
def combL1R1 : GamepadCombination :=
  (GamepadCombination.empty.addButton GamepadButtonType.L1).addButton
    GamepadButtonType.R1

/-- The pair combination with one extra token. -/
def combL1R1Triangle : GamepadCombination :=
  combL1R1.addButton GamepadButtonType.TRIANGLE

/-- A registry with one shortcut bound exactly to the pair combination. -/
def regExact : GamepadShortcutRegistry Unit :=
  { registry := [(js "a", { name := js "a", callback := some fun _ => some true })],
    combinationMap := [(GamepadCombination.serialize combL1R1, [js "a"])] }

/-- A registry with two shortcuts on one combination, the first handling. -/
def regOrder : GamepadShortcutRegistry Unit :=
  { registry :=
      [(js "first", { name := js "first", callback := some fun _ => some true }),
       (js "second",
        { name := js "second", callback := some fun _ => some true })],
    combinationMap :=
      [(GamepadCombination.serialize GamepadCombination.CROSS,
        [js "first", js "second"])] }

/-- A registry mapping the cross combination to the mark shortcut name; the
input of the removeCombinationMapping evaluation. -/
def regRemove : GamepadShortcutRegistry Unit :=
  { registry := [], combinationMap := [(js "cross", [SHORTCUT_NAMES.MARK])] }

/-- A registry whose combination map already holds the mark name under the
cross combination. -/
def regCollision : GamepadShortcutRegistry Unit :=
  { registry := [], combinationMap := [(js "cross", [SHORTCUT_NAMES.MARK])] }

/-- A registry with an empty combination map. -/
def regFresh : GamepadShortcutRegistry Unit :=
  { registry := [], combinationMap := [] }

/-- An accessibility status with no workspace enabled. -/
def statusDisabled : AccessibilityStatus := { enabledWorkspaceIds := [] }

/-- An accessibility status with the ws1 workspace enabled. -/
def statusEnabled : AccessibilityStatus := { enabledWorkspaceIds := [js "ws1"] }

/-- A bare session with id ws1. -/
def sessionWs1 : NavSession := { id := js "ws1" }

/-- The previous shortcut as registered by registerPrevious: its
precondition is the accessibility flag.  The callback body is irrelevant to
the gating claim and is stubbed as handling. -/
def previousShortcutWith (status : AccessibilityStatus) :
    GamepadShortcut NavSession :=
  { name := SHORTCUT_NAMES.PREVIOUS,
    preconditionFn := some (previousPreconditionFn status),
    callback := some fun _ => some true }

/-- A registry with the previous shortcut under its default binding
(left stick up). -/
def regGating (status : AccessibilityStatus) :
    GamepadShortcutRegistry NavSession :=
  { registry := [(SHORTCUT_NAMES.PREVIOUS, previousShortcutWith status)],
    combinationMap :=
      [(GamepadCombination.serialize GamepadCombination.LEFT_STICK_UP,
        [SHORTCUT_NAMES.PREVIOUS])] }

/-- A registry with one always-handling shortcut under the cross button. -/
def regHandled : GamepadShortcutRegistry Unit :=
  { registry :=
      [(SHORTCUT_NAMES.MARK,
        { name := SHORTCUT_NAMES.MARK, callback := some fun _ => some true })],
    combinationMap :=
      [(GamepadCombination.serialize GamepadCombination.CROSS,
        [SHORTCUT_NAMES.MARK])] }

/-- A monitor configured with a 500 ms debounce interval, one connected
controller, one tracked session and a previous handled activation at
timestamp 0. -/
def monitorConfigured : GamepadMonitor Unit :=
  { registry := regHandled,
    connectedGamepadIndexes := [0],
    delayBetweenCombinations := 500,
    axisActivationThreshold := DEFAULT_AXIS_ACTIVATION_THRESHOLD,
    timeSinceLastCommandHandled := none,
    workspaces := [()],
    disposed := false }

/-- A raw controller with only the cross button (slot 0) pressed. -/
def crossGamepad : Gamepad := { buttons := fun i => i == 0, axes := fun _ => 0 }

/-- Every controller index reports the cross-pressed state. -/
def gamepadsCross : Nat → Gamepad := fun _ => crossGamepad

/-- A raw controller with only the D-pad up button (slot 12) pressed. -/
def upGamepad : Gamepad := { buttons := fun i => i == 12, axes := fun _ => 0 }

/-- Every controller index reports the up-pressed state. -/
def gamepadsUp : Nat → Gamepad := fun _ => upGamepad

/-- The copy shortcut as registered by registerCopy. -/
def copyShortcutWith (status : AccessibilityStatus) :
    GamepadShortcut NavSession :=
  { name := SHORTCUT_NAMES.COPY,
    preconditionFn := some (copyPreconditionFn status),
    callback := some fun workspace => (copyCallback workspace).1 }

/-- A registry with the copy shortcut under its default binding (D-pad up). -/
def regCopy (status : AccessibilityStatus) :
    GamepadShortcutRegistry NavSession :=
  { registry := [(SHORTCUT_NAMES.COPY, copyShortcutWith status)],
    combinationMap :=
      [(GamepadCombination.serialize GamepadCombination.UP,
        [SHORTCUT_NAMES.COPY])] }

/-- A monitor tracking one session, with the copy registry, a connected
controller and a previous handled activation at timestamp 0. -/
def monitorCopy (status : AccessibilityStatus) (workspace : NavSession) :
    GamepadMonitor NavSession :=
  { registry := regCopy status,
    connectedGamepadIndexes := [0],
    delayBetweenCombinations := DEFAULT_DELAY_BETWEEN_COMBINATIONS_MILLISECONDS,
    axisActivationThreshold := DEFAULT_AXIS_ACTIVATION_THRESHOLD,
    timeSinceLastCommandHandled := some 0,
    workspaces := [workspace],
    disposed := false }

/-- A deletable, movable block with a next sibling. -/
def blockB1 : BlockModel := { id := js "b1", nextSibling := some (js "b2") }

/-- A session whose cursor rests on blockB1. -/
def sessionOnBlock : NavSession :=
  { id := js "ws1", curNode := some { sourceBlock := some blockB1 } }

/-- The four axis slots with their negative-direction and positive-direction
tokens. -/
def axisPairs : List (Nat × JsStr × JsStr) :=
  [(0, GamepadAxisType.LEFT_HORIZONTAL_LEFT,
    GamepadAxisType.LEFT_HORIZONTAL_RIGHT),
   (1, GamepadAxisType.LEFT_VERTICAL_UP, GamepadAxisType.LEFT_VERTICAL_DOWN),
   (2, GamepadAxisType.RIGHT_HORIZONTAL_LEFT,
    GamepadAxisType.RIGHT_HORIZONTAL_RIGHT),
   (3, GamepadAxisType.RIGHT_VERTICAL_UP,
    GamepadAxisType.RIGHT_VERTICAL_DOWN)]

/-! Theorems. -/

theorem splitPlus_ne_nil (s : JsStr) : splitPlus s ≠ [] := by
  cases s with
  | nil => simp [splitPlus]
  | cons c cs =>
    by_cases h : c = '+' <;> simp [splitPlus, h]

theorem splitPlus_plusfree (t : JsStr) (hfree : '+' ∉ t) : splitPlus t = [t] := by
  induction t with
  | nil => rfl
  | cons c cs ih =>
    have hc : c ≠ '+' := fun h => hfree (h ▸ List.mem_cons_self c cs)
    have hcs : '+' ∉ cs := fun h => hfree (List.mem_cons_of_mem c h)
    simp [splitPlus, hc, ih hcs]

theorem splitPlus_append_plus (t : JsStr) (r : JsStr) (hfree : '+' ∉ t) :
    splitPlus (t ++ '+' :: r) = t :: splitPlus r := by
  induction t with
  | nil => simp [splitPlus]
  | cons c cs ih =>
    have hc : c ≠ '+' := fun h => hfree (h ▸ List.mem_cons_self c cs)
    have hcs : '+' ∉ cs := fun h => hfree (List.mem_cons_of_mem c h)
    have hrec := ih hcs
    simp only [List.cons_append, splitPlus, hc, if_false, List.append_eq, hrec,
      List.headD_cons, List.tail_cons]

theorem splitPlus_joinPlus :
    ∀ ts : List JsStr, ts ≠ [] → (∀ t ∈ ts, '+' ∉ t) →
      splitPlus (joinPlus ts) = ts := by
  intro ts
  induction ts with
  | nil => intro h; exact absurd rfl h
  | cons t rest ih =>
    intro _ hfree
    cases rest with
    | nil => exact splitPlus_plusfree t (hfree t (List.mem_cons_self t []))
    | cons u us =>
      have hjoin : joinPlus (t :: u :: us) = t ++ '+' :: joinPlus (u :: us) := rfl
      rw [hjoin, splitPlus_append_plus t _ (hfree t (List.mem_cons_self t _))]
      rw [ih (by simp) (fun x hx => hfree x (List.mem_cons_of_mem t hx))]

theorem allTokens_plusfree : ∀ t ∈ allTokens, t ≠ [] ∧ '+' ∉ t := by decide

theorem foldl_setAdd_of_nodup :
    ∀ (l acc : List JsStr), (acc ++ l).Nodup → l.foldl setAdd acc = acc ++ l := by
  intro l
  induction l with
  | nil => intro acc _; simp
  | cons x xs ih =>
    intro acc hnd
    have hx : x ∉ acc := by
      intro hmem
      have := List.disjoint_of_nodup_append hnd hmem
      simp at this
    have hstep : setAdd acc x = acc ++ [x] := by simp [setAdd, hx]
    have hnd' : ((acc ++ [x]) ++ xs).Nodup := by
      simpa [List.append_assoc] using hnd
    calc (x :: xs).foldl setAdd acc = xs.foldl setAdd (setAdd acc x) := rfl
      _ = xs.foldl setAdd (acc ++ [x]) := by rw [hstep]
      _ = (acc ++ [x]) ++ xs := ih (acc ++ [x]) hnd'
      _ = acc ++ x :: xs := by simp

theorem jsSetFromList_of_nodup (l : List JsStr) (h : l.Nodup) :
    jsSetFromList l = l := by
  simpa using foldl_setAdd_of_nodup l [] (by simpa using h)

theorem sortTokens_perm (l : List JsStr) : List.Perm (sortTokens l) l :=
  List.perm_insertionSort TokLe l

theorem mem_sortTokens (t : JsStr) (l : List JsStr) :
    t ∈ sortTokens l ↔ t ∈ l :=
  (sortTokens_perm l).mem_iff

theorem sortTokens_ne_nil (l : List JsStr) (h : l ≠ []) : sortTokens l ≠ [] := by
  intro h0
  have hlen := (sortTokens_perm l).length_eq
  rw [h0] at hlen
  exact h (List.length_eq_zero.mp hlen.symm)

theorem sortTokens_nodup (l : List JsStr) (h : l.Nodup) :
    (sortTokens l).Nodup :=
  ((sortTokens_perm l).nodup_iff).mpr h

theorem sortTokens_idem (l : List JsStr) :
    sortTokens (sortTokens l) = sortTokens l :=
  List.Sorted.insertionSort_eq (List.sorted_insertionSort TokLe l)

theorem joinPlus_ne_nil (ts : List JsStr) (hne : ts ≠ [])
    (htok : ∀ t ∈ ts, t ≠ []) : joinPlus ts ≠ [] := by
  cases ts with
  | nil => exact absurd rfl hne
  | cons t rest =>
    cases rest with
    | nil => exact htok t (List.mem_cons_self t [])
    | cons u us =>
      show t ++ '+' :: joinPlus (u :: us) ≠ []
      cases t <;> simp

theorem serialize_ne_nil (c : GamepadCombination)
    (hwf : WellFormedCombination c) (hne : c.combination ≠ []) :
    GamepadCombination.serialize c ≠ [] := by
  refine joinPlus_ne_nil (sortTokens c.combination)
    (sortTokens_ne_nil c.combination hne) ?_
  intro t ht
  exact (allTokens_plusfree t
    (hwf.2 t ((mem_sortTokens t c.combination).mp ht))).1

/-- Splitting a serialized well-formed combination recovers the sorted token
list. -/
theorem splitPlus_serialize (c : GamepadCombination)
    (hwf : WellFormedCombination c) (hne : c.combination ≠ []) :
    splitPlus (GamepadCombination.serialize c) = sortTokens c.combination := by
  apply splitPlus_joinPlus
  · exact sortTokens_ne_nil c.combination hne
  · intro t ht
    exact (allTokens_plusfree t
      (hwf.2 t ((mem_sortTokens t c.combination).mp ht))).2

/-- Helper for exact-match dispatch: the serialization determines the token
set of a well-formed combination. -/
theorem serialize_determines_tokens (c c' : GamepadCombination)
    (hwf : WellFormedCombination c) (hwf' : WellFormedCombination c')
    (heq : GamepadCombination.serialize c = GamepadCombination.serialize c') :
    ∀ t, t ∈ c.combination ↔ t ∈ c'.combination := by
  by_cases hc : c.combination = []
  · by_cases hc' : c'.combination = []
    · intro t; rw [hc, hc']
    · exfalso
      have h1 : GamepadCombination.serialize c = [] := by
        show joinPlus (sortTokens c.combination) = []
        rw [hc]; rfl
      exact serialize_ne_nil c' hwf' hc' (heq ▸ h1)
  · by_cases hc' : c'.combination = []
    · exfalso
      have h1 : GamepadCombination.serialize c' = [] := by
        show joinPlus (sortTokens c'.combination) = []
        rw [hc']; rfl
      exact serialize_ne_nil c hwf hc (heq ▸ h1)
    · have hs := splitPlus_serialize c hwf hc
      have hs' := splitPlus_serialize c' hwf' hc'
      have hsort : sortTokens c.combination = sortTokens c'.combination := by
        rw [← hs, ← hs', heq]
      intro t
      rw [← mem_sortTokens t c.combination, ← mem_sortTokens t c'.combination,
        hsort]

/-- Claim C4 (amended): for every non-empty combination built from the Codec,
deserialize(serialize(c)) succeeds and yields a combination with an identical
serialization.  (For the empty combination, deserialize of the empty
serialization raises a parse error; see the counterexample.) -/
theorem deserialize_serialize_roundTrip (c : GamepadCombination)
    (hwf : WellFormedCombination c) (hne : c.combination ≠ []) :
    ∃ c', GamepadCombination.deserialize (GamepadCombination.serialize c) =
        Except.ok c' ∧
      GamepadCombination.serialize c' = GamepadCombination.serialize c := by
  refine ⟨⟨sortTokens c.combination⟩, ?_, ?_⟩
  · have hsplit := splitPlus_serialize c hwf hne
    have hfind : (sortTokens c.combination).find?
        (fun t => !(decide (t ∈ ALL_BUTTONS ∨ t ∈ ALL_AXES))) = none := by
      apply List.find?_eq_none.mpr
      intro x hx
      have hmem := hwf.2 x ((mem_sortTokens x c.combination).mp hx)
      have hor : x ∈ ALL_BUTTONS ∨ x ∈ ALL_AXES := by
        simpa [allTokens] using hmem
      simp [hor]
    simp only [GamepadCombination.deserialize, hsplit, hfind]
    rw [sortTokens_idem, jsSetFromList_of_nodup _ (sortTokens_nodup _ hwf.1)]
  · show joinPlus (sortTokens (sortTokens c.combination)) =
      joinPlus (sortTokens c.combination)
    rw [sortTokens_idem]

/-- Claim C4 counterexample: the empty combination serializes to the empty
string, and deserializing the empty string raises a parse error (the empty
token is not a member of either enumeration), so the round trip fails exactly
at the empty combination. -/
theorem deserialize_serialize_empty_fails :
    GamepadCombination.deserialize
      (GamepadCombination.serialize GamepadCombination.empty) =
    Except.error [] := rfl

/-- Witness for C4: the round trip at the single-button combination CROSS. -/
theorem deserialize_serialize_roundTrip_witness :
    WellFormedCombination GamepadCombination.CROSS ∧
      GamepadCombination.CROSS.combination ≠ [] ∧
      ∃ c', GamepadCombination.deserialize
          (GamepadCombination.serialize GamepadCombination.CROSS) =
          Except.ok c' ∧
        GamepadCombination.serialize c' =
          GamepadCombination.serialize GamepadCombination.CROSS :=
  ⟨by decide, by decide,
    deserialize_serialize_roundTrip GamepadCombination.CROSS (by decide)
      (by decide)⟩

/-! Theorems.  First the dispatch lemmas shared by the registry claims. -/

theorem eligibleEntry_fst {σ : Type} (reg : GamepadShortcutRegistry σ)
    (ws : σ) (n : JsStr) (p : JsStr × (σ → Option Bool))
    (h : eligibleEntry reg ws n = some p) : p.1 = n := by
  unfold eligibleEntry at h
  split at h
  · exact absurd h (by simp)
  · split at h
    · split at h
      · exact absurd h (by simp)
      · obtain ⟨cb, _, hp⟩ := Option.map_eq_some'.mp h
        rw [← hp]
    · obtain ⟨cb, _, hp⟩ := Option.map_eq_some'.mp h
      rw [← hp]

theorem eligibleEntry_passes {σ : Type} (reg : GamepadShortcutRegistry σ)
    (ws : σ) (n : JsStr) (p : JsStr × (σ → Option Bool))
    (h : eligibleEntry reg ws n = some p) :
    ∃ sc, mapGet reg.registry n = some sc ∧
      ∀ pf, sc.preconditionFn = some pf → pf ws = true := by
  unfold eligibleEntry at h
  split at h
  · exact absurd h (by simp)
  · rename_i sc hsc
    refine ⟨sc, hsc, ?_⟩
    intro pf hpf
    split at h
    · rename_i pf' hpf'
      split at h
      · exact absurd h (by simp)
      · rename_i hpw
        rw [hpf] at hpf'
        injection hpf' with he
        subst he
        simpa using hpw
    · rename_i hnone
      rw [hpf] at hnone
      exact absurd hnone (by simp)

/-- The closed form of the dispatch loop: the Boolean result is whether some
eligible callback handles the activation, and the callbacks invoked are the
failing prefix followed by the first handling one when it exists. -/
theorem onActivateGo_spec {σ : Type} (reg : GamepadShortcutRegistry σ)
    (ws : σ) :
    ∀ names : List JsStr,
      GamepadShortcutRegistry.onActivateGo reg ws names =
        (!((eligibleOf reg ws names).dropWhile
            (fun entry => !callbackHandled ws entry)).isEmpty,
         (((eligibleOf reg ws names).takeWhile
              (fun entry => !callbackHandled ws entry)) ++
            ((eligibleOf reg ws names).dropWhile
              (fun entry => !callbackHandled ws entry)).take 1).map
           Prod.fst) := by
  intro names
  induction names with
  | nil => rfl
  | cons m rest ih =>
    cases hlk : mapGet reg.registry m with
    | none =>
      have hel : eligibleOf reg ws (m :: rest) = eligibleOf reg ws rest := by
        simp [eligibleOf, List.filterMap_cons, eligibleEntry, hlk]
      have hgo : GamepadShortcutRegistry.onActivateGo reg ws (m :: rest) =
          GamepadShortcutRegistry.onActivateGo reg ws rest := by
        simp [GamepadShortcutRegistry.onActivateGo, hlk]
      rw [hgo, hel]
      exact ih
    | some sc =>
      cases hpf : sc.preconditionFn with
      | some pf =>
        by_cases hpw : pf ws
        · cases hcb : sc.callback with
          | none =>
            have hel : eligibleOf reg ws (m :: rest) =
                eligibleOf reg ws rest := by
              simp [eligibleOf, List.filterMap_cons, eligibleEntry, hlk, hpf,
                hpw, hcb]
            have hgo :
                GamepadShortcutRegistry.onActivateGo reg ws (m :: rest) =
                GamepadShortcutRegistry.onActivateGo reg ws rest := by
              simp [GamepadShortcutRegistry.onActivateGo, hlk, hpf, hpw, hcb]
            rw [hgo, hel]
            exact ih
          | some cb =>
            have hel : eligibleOf reg ws (m :: rest) =
                (m, cb) :: eligibleOf reg ws rest := by
              simp [eligibleOf, List.filterMap_cons, eligibleEntry, hlk, hpf,
                hpw, hcb]
            by_cases hres : cb ws = some true
            · have hgo :
                  GamepadShortcutRegistry.onActivateGo reg ws (m :: rest) =
                  (true, [m]) := by
                simp [GamepadShortcutRegistry.onActivateGo, hlk, hpf, hpw,
                  hcb, hres]
              rw [hgo, hel]
              simp [List.dropWhile_cons, List.takeWhile_cons,
                callbackHandled, hres]
            · have hgo :
                  GamepadShortcutRegistry.onActivateGo reg ws (m :: rest) =
                  ((GamepadShortcutRegistry.onActivateGo reg ws rest).1,
                   m :: (GamepadShortcutRegistry.onActivateGo reg ws
                     rest).2) := by
                simp [GamepadShortcutRegistry.onActivateGo, hlk, hpf, hpw,
                  hcb, hres]
              rw [hgo, hel, ih]
              simp [List.dropWhile_cons, List.takeWhile_cons,
                callbackHandled, hres]
        · have hel : eligibleOf reg ws (m :: rest) =
              eligibleOf reg ws rest := by
            simp [eligibleOf, List.filterMap_cons, eligibleEntry, hlk, hpf,
              hpw]
          have hgo : GamepadShortcutRegistry.onActivateGo reg ws (m :: rest) =
              GamepadShortcutRegistry.onActivateGo reg ws rest := by
            simp [GamepadShortcutRegistry.onActivateGo, hlk, hpf, hpw]
          rw [hgo, hel]
          exact ih
      | none =>
        cases hcb : sc.callback with
        | none =>
          have hel : eligibleOf reg ws (m :: rest) =
              eligibleOf reg ws rest := by
            simp [eligibleOf, List.filterMap_cons, eligibleEntry, hlk, hpf,
              hcb]
          have hgo : GamepadShortcutRegistry.onActivateGo reg ws (m :: rest) =
              GamepadShortcutRegistry.onActivateGo reg ws rest := by
            simp [GamepadShortcutRegistry.onActivateGo, hlk, hpf, hcb]
          rw [hgo, hel]
          exact ih
        | some cb =>
          have hel : eligibleOf reg ws (m :: rest) =
              (m, cb) :: eligibleOf reg ws rest := by
            simp [eligibleOf, List.filterMap_cons, eligibleEntry, hlk, hpf,
              hcb]
          by_cases hres : cb ws = some true
          · have hgo :
                GamepadShortcutRegistry.onActivateGo reg ws (m :: rest) =
                (true, [m]) := by
              simp [GamepadShortcutRegistry.onActivateGo, hlk, hpf, hcb, hres]
            rw [hgo, hel]
            simp [List.dropWhile_cons, List.takeWhile_cons, callbackHandled,
              hres]
          · have hgo :
                GamepadShortcutRegistry.onActivateGo reg ws (m :: rest) =
                ((GamepadShortcutRegistry.onActivateGo reg ws rest).1,
                 m :: (GamepadShortcutRegistry.onActivateGo reg ws rest).2) := by
              simp [GamepadShortcutRegistry.onActivateGo, hlk, hpf, hcb, hres]
            rw [hgo, hel, ih]
            simp [List.dropWhile_cons, List.takeWhile_cons, callbackHandled,
              hres]

theorem mem_invoked_eligible {σ : Type} (reg : GamepadShortcutRegistry σ)
    (ws : σ) (names : List JsStr) (n : JsStr)
    (h : n ∈ (GamepadShortcutRegistry.onActivateGo reg ws names).2) :
    ∃ cb, (n, cb) ∈ eligibleOf reg ws names := by
  rw [onActivateGo_spec] at h
  simp only [List.mem_map] at h
  obtain ⟨p, hp, hfst⟩ := h
  have hmem : p ∈ eligibleOf reg ws names := by
    rcases List.mem_append.mp hp with h1 | h2
    · exact (List.takeWhile_sublist _).mem h1
    · exact (List.dropWhile_sublist _).mem ((List.take_sublist _ _).mem h2)
  refine ⟨p.2, ?_⟩
  obtain ⟨a, b⟩ := p
  rw [show a = n from hfst] at hmem
  exact hmem

theorem invoked_mem_bound {σ : Type} (reg : GamepadShortcutRegistry σ)
    (ws : σ) (names : List JsStr) (n : JsStr)
    (h : n ∈ (GamepadShortcutRegistry.onActivateGo reg ws names).2) :
    n ∈ names := by
  obtain ⟨cb, hcb⟩ := mem_invoked_eligible reg ws names n h
  obtain ⟨a, ha, hfa⟩ := List.mem_filterMap.mp hcb
  have hfst := eligibleEntry_fst reg ws a (n, cb) hfa
  exact (show n = a from hfst) ▸ ha

/-- Claim C1: dispatch is exact-match only.  First, an empty combination is
rejected immediately with no callback invoked.  Second, every invoked
shortcut name comes from the map entry of the exact serialized combination.
Third, the serialization of a well-formed combination determines its token
set, so two combinations with different token sets (in particular a
combination and a strict sub-combination of it) use different map keys and
never trigger the shortcuts bound only to the other. -/
theorem onActivate_exact_match {σ : Type} (reg : GamepadShortcutRegistry σ)
    (ws : σ) :
    (∀ c : GamepadCombination, c.isEmpty = true →
        GamepadShortcutRegistry.onActivate reg ws c = (false, [])) ∧
      (∀ (c : GamepadCombination) (n : JsStr),
        n ∈ (GamepadShortcutRegistry.onActivate reg ws c).2 →
        n ∈ GamepadShortcutRegistry.getShortcutNamesByCombination reg c) ∧
      (∀ c c' : GamepadCombination,
        WellFormedCombination c → WellFormedCombination c' →
        GamepadCombination.serialize c = GamepadCombination.serialize c' →
        ∀ t, t ∈ c.combination ↔ t ∈ c'.combination) := by
  refine ⟨?_, ?_, serialize_determines_tokens⟩
  · intro c hc
    simp [GamepadShortcutRegistry.onActivate, hc]
  · intro c n hmem
    unfold GamepadShortcutRegistry.onActivate at hmem
    by_cases hc : c.isEmpty
    · simp [hc] at hmem
    · rw [if_neg (by simpa using hc)] at hmem
      exact invoked_mem_bound reg ws _ n hmem

/-- Witness for C1: a shortcut bound exactly to the pair L1+R1 is not
triggered by the superset combination L1+R1+Triangle, the two serializations
differ, and the empty combination dispatches to nothing. -/
theorem onActivate_exact_match_witness :
    GamepadShortcutRegistry.onActivate regExact () GamepadCombination.empty =
        (false, []) ∧
      (js "a") ∉
        (GamepadShortcutRegistry.onActivate regExact () combL1R1Triangle).2 ∧
      GamepadCombination.serialize combL1R1 ≠
        GamepadCombination.serialize combL1R1Triangle := by
  have h := onActivate_exact_match regExact ()
  refine ⟨h.1 GamepadCombination.empty rfl, ?_, ?_⟩
  · intro hmem
    have h2 := h.2.1 combL1R1Triangle (js "a") hmem
    revert h2
    decide
  · intro heq
    have h3 := h.2.2 combL1R1 combL1R1Triangle (by decide) (by decide) heq
      GamepadButtonType.TRIANGLE
    revert h3
    decide

/-- Claim C2: for a non-empty combination, onActivate tries the eligible
callbacks in bound order; the invoked callbacks are exactly the failing
prefix of the eligible list followed by the first handling one when there is
one (so no callback after the first handling one is ever invoked), and the
result is true exactly when some eligible callback handles the
activation. -/
theorem onActivate_dispatch_order {σ : Type}
    (reg : GamepadShortcutRegistry σ) (ws : σ) (c : GamepadCombination)
    (h : c.isEmpty = false) :
    GamepadShortcutRegistry.onActivate reg ws c =
      (!((eligibleCallbacks reg ws c).dropWhile
          (fun entry => !callbackHandled ws entry)).isEmpty,
       (((eligibleCallbacks reg ws c).takeWhile
            (fun entry => !callbackHandled ws entry)) ++
          ((eligibleCallbacks reg ws c).dropWhile
            (fun entry => !callbackHandled ws entry)).take 1).map
         Prod.fst) := by
  unfold GamepadShortcutRegistry.onActivate
  rw [if_neg (by simp [h])]
  exact onActivateGo_spec reg ws _

/-- Witness for C2: two shortcuts bound to the cross combination whose first
callback handles the activation; the theorem instantiates there, and the
dispatch stops after the first callback. -/
theorem onActivate_dispatch_order_witness :
    GamepadCombination.CROSS.isEmpty = false ∧
      GamepadShortcutRegistry.onActivate regOrder () GamepadCombination.CROSS =
        (!((eligibleCallbacks regOrder () GamepadCombination.CROSS).dropWhile
            (fun entry => !callbackHandled () entry)).isEmpty,
         (((eligibleCallbacks regOrder () GamepadCombination.CROSS).takeWhile
              (fun entry => !callbackHandled () entry)) ++
            ((eligibleCallbacks regOrder ()
                GamepadCombination.CROSS).dropWhile
              (fun entry => !callbackHandled () entry)).take 1).map
           Prod.fst) ∧
      (GamepadShortcutRegistry.onActivate regOrder ()
          GamepadCombination.CROSS).2 = [js "first"] :=
  ⟨rfl, onActivate_dispatch_order regOrder () GamepadCombination.CROSS rfl,
    rfl⟩

/-- Claim C3 (code bug): removing the one mapping that is present returns
false, emits a warning and leaves the map unchanged, because the source
tests `shortcutNames.has(serializedCombination)` where its own documentation
and the spec call for `shortcutNames.has(shortcutName)`. -/
theorem removeCombinationMapping_returns_false :
    GamepadShortcutRegistry.removeCombinationMapping regRemove
      GamepadCombination.CROSS SHORTCUT_NAMES.MARK false =
    (false, regRemove, true) := rfl

/-- Claim C8: a shortcut whose precondition references the accessibility
flag (that is, whose precondition can only pass when the flag is true) is
skipped during dispatch for every session whose flag is false: its callback
is never invoked, even while its bound combination is the one being
activated. -/
theorem onActivate_precondition_gating {σ : Type} (flag : σ → Bool)
    (reg : GamepadShortcutRegistry σ) (ws : σ) (c : GamepadCombination)
    (name : JsStr) (sc : GamepadShortcut σ) (pf : σ → Bool)
    (hlook : mapGet reg.registry name = some sc)
    (hpf : sc.preconditionFn = some pf)
    (himpl : ∀ s, pf s = true → flag s = true)
    (hflag : flag ws = false) :
    name ∉ (GamepadShortcutRegistry.onActivate reg ws c).2 := by
  intro hmem
  unfold GamepadShortcutRegistry.onActivate at hmem
  by_cases hc : c.isEmpty
  · simp [hc] at hmem
  · rw [if_neg (by simpa using hc)] at hmem
    obtain ⟨cb, hcb⟩ := mem_invoked_eligible reg ws _ name hmem
    obtain ⟨a, _, hfa⟩ := List.mem_filterMap.mp hcb
    have hfst := eligibleEntry_fst reg ws a (name, cb) hfa
    rw [show a = name from hfst.symm] at hfa
    obtain ⟨sc', hlk', hpass⟩ := eligibleEntry_passes reg ws name _ hfa
    rw [hlook] at hlk'
    injection hlk' with hsc
    have hpw : pf ws = true := hpass pf (by rw [← hsc, hpf])
    rw [himpl ws hpw] at hflag
    exact Bool.noConfusion hflag

/-- Witness for C8: with accessibility disabled for the session, the
previous shortcut (whose precondition is exactly the flag) is not invoked
even though its bound combination (left stick up) is the one activated. -/
theorem onActivate_precondition_gating_witness :
    isGamepadAccessibilityEnabled statusDisabled sessionWs1 = false ∧
      SHORTCUT_NAMES.PREVIOUS ∉
        (GamepadShortcutRegistry.onActivate (regGating statusDisabled)
          sessionWs1 GamepadCombination.LEFT_STICK_UP).2 :=
  ⟨rfl,
    onActivate_precondition_gating
      (isGamepadAccessibilityEnabled statusDisabled) (regGating statusDisabled)
      sessionWs1 GamepadCombination.LEFT_STICK_UP SHORTCUT_NAMES.PREVIOUS
      (previousShortcutWith statusDisabled)
      (previousPreconditionFn statusDisabled) rfl rfl (fun _ h => h) rfl⟩

theorem mapGet_mapSet {α : Type} (m : List (JsStr × α)) (k : JsStr) (v : α) :
    mapGet (mapSet m k v) k = some v := by
  induction m with
  | nil => simp [mapSet, mapGet]
  | cons p rest ih =>
    obtain ⟨k', v'⟩ := p
    by_cases h : k' = k
    · simp [mapSet, mapGet, h]
    · simp [mapSet, mapGet, h, ih]

/-- Claim C9 (amended): addCombinationMapping raises exactly when the
combination already maps to at least one name (whether or not it is the one
being added) and allowCollision is false; in every non-raising case the
entry afterwards is the previous set (empty when absent) with the name
added. -/
theorem addCombinationMapping_spec {σ : Type}
    (reg : GamepadShortcutRegistry σ) (c : GamepadCombination) (name : JsStr)
    (allow : Bool) :
    ((∃ e, GamepadShortcutRegistry.addCombinationMapping reg c name allow =
        Except.error e) ↔
      (mapHas reg.combinationMap (GamepadCombination.serialize c) = true ∧
        allow = false)) ∧
    (∀ reg', GamepadShortcutRegistry.addCombinationMapping reg c name allow =
        Except.ok reg' →
      mapGet reg'.combinationMap (GamepadCombination.serialize c) =
        some (setAdd
          ((mapGet reg.combinationMap
            (GamepadCombination.serialize c)).getD [])
          name)) := by
  unfold GamepadShortcutRegistry.addCombinationMapping
  by_cases hh : mapHas reg.combinationMap (GamepadCombination.serialize c)
  · cases allow with
    | false =>
      constructor
      · simp [hh]
      · intro reg' hok
        rw [if_pos (by simp [hh])] at hok
        exact absurd hok (by simp)
    | true =>
      constructor
      · constructor
        · intro ⟨e, he⟩
          rw [if_neg (by simp), if_pos (by simp [hh])] at he
          exact absurd he (by simp)
        · intro ⟨_, hfalse⟩
          exact absurd hfalse (by simp)
      · intro reg' hok
        rw [if_neg (by simp), if_pos (by simp [hh])] at hok
        injection hok with he
        rw [← he]
        exact mapGet_mapSet _ _ _
  · constructor
    · constructor
      · intro ⟨e, he⟩
        rw [if_neg (by simp [hh]), if_neg (by simp [hh])] at he
        exact absurd he (by simp)
      · intro ⟨htrue, _⟩
        exact absurd htrue hh
    · intro reg' hok
      rw [if_neg (by simp [hh]), if_neg (by simp [hh])] at hok
      injection hok with he
      rw [← he]
      rw [mapGet_mapSet]
      have hget : mapGet reg.combinationMap (GamepadCombination.serialize c) =
          none := by
        revert hh
        unfold mapHas
        cases mapGet reg.combinationMap (GamepadCombination.serialize c) <;>
          simp
      rw [hget]
      simp [setAdd]

/-- Claim C9 counterexample: re-adding the very same name to a combination
without allowCollision raises a collision error, where the claim says a
collision error is raised only when the existing names are different from
the one being added. -/
theorem addCombinationMapping_same_name_raises :
    GamepadShortcutRegistry.addCombinationMapping regCollision
      GamepadCombination.CROSS SHORTCUT_NAMES.MARK false =
    Except.error [SHORTCUT_NAMES.MARK] := rfl

/-- Witness for C9: the amended specification instantiated at the collision
registry (raising) and at the fresh registry (creating the entry). -/
theorem addCombinationMapping_spec_witness :
    (∃ e, GamepadShortcutRegistry.addCombinationMapping regCollision
        GamepadCombination.CROSS SHORTCUT_NAMES.MARK false =
      Except.error e) ∧
      mapGet regCollision.combinationMap
          (GamepadCombination.serialize GamepadCombination.CROSS) =
        some (setAdd
          ((mapGet regFresh.combinationMap
            (GamepadCombination.serialize GamepadCombination.CROSS)).getD [])
          SHORTCUT_NAMES.MARK) :=
  ⟨((addCombinationMapping_spec regCollision GamepadCombination.CROSS
      SHORTCUT_NAMES.MARK false).1).mpr ⟨rfl, rfl⟩,
   (addCombinationMapping_spec regFresh GamepadCombination.CROSS
      SHORTCUT_NAMES.MARK false).2 regCollision rfl⟩

/-- Claim C5 (code bug): the tick of handleAnimationFrame compares the
elapsed time against the module constant of 200 ms rather than against the
configured delayBetweenCombinations field, which is stored by the
constructor and never read.  On a monitor configured with a 500 ms interval,
an activation at timestamp 0 and another at timestamp 300 (closer than the
configured interval) are both dispatched and both handled. -/
theorem monitor_ignores_configured_delay :
    monitorConfigured.delayBetweenCombinations = 500 ∧
      (handleAnimationFrame monitorConfigured 0 gamepadsCross).2 =
        [SHORTCUT_NAMES.MARK] ∧
      (handleAnimationFrame monitorConfigured 0
          gamepadsCross).1.timeSinceLastCommandHandled = some 0 ∧
      (handleAnimationFrame
          (handleAnimationFrame monitorConfigured 0 gamepadsCross).1 300
          gamepadsCross).2 = [SHORTCUT_NAMES.MARK] ∧
      (handleAnimationFrame
          (handleAnimationFrame monitorConfigured 0 gamepadsCross).1 300
          gamepadsCross).1.timeSinceLastCommandHandled = some 300 := by
  refine ⟨rfl, ?_, ?_, ?_, ?_⟩ <;> rfl

/-- Claim C7: when the delete or the cut callback removes a block (cursor on
a block, no drag gesture for delete), the emitted editor calls place the
cursor at the policy location (next-sibling connection, else parent, else a
bare workspace position) strictly before the block removal: every removal in
the trace is preceded by the relocation. -/
theorem delete_cut_relocate_before_remove (workspace : NavSession)
    (b : BlockModel) (hblock : curBlockOf workspace = some b)
    (hgesture : workspace.gestureInProgress = false) :
    deleteCallback workspace =
      (some true,
        [EditorAction.setCursor (moveCursorOnBlockDelete b),
         EditorAction.removeBlock b.id]) ∧
      cutCallback workspace =
        (some true,
          [EditorAction.copyBlock b.id,
           EditorAction.setCursor (moveCursorOnBlockDelete b),
           EditorAction.removeBlock b.id]) ∧
      (∀ tr : List EditorAction,
        tr = (deleteCallback workspace).2 ∨ tr = (cutCallback workspace).2 →
        ∀ k, tr.get? k = some (EditorAction.removeBlock b.id) →
          ∃ j, j < k ∧
            tr.get? j =
              some (EditorAction.setCursor (moveCursorOnBlockDelete b))) := by
  have hdel : deleteCallback workspace =
      (some true,
        [EditorAction.setCursor (moveCursorOnBlockDelete b),
         EditorAction.removeBlock b.id]) := by
    simp [deleteCallback, hblock, hgesture]
  have hcut : cutCallback workspace =
      (some true,
        [EditorAction.copyBlock b.id,
         EditorAction.setCursor (moveCursorOnBlockDelete b),
         EditorAction.removeBlock b.id]) := by
    simp [cutCallback, hblock]
  refine ⟨hdel, hcut, ?_⟩
  intro tr htr k hk
  rcases htr with h | h
  · subst h
    rw [hdel] at hk ⊢
    match k, hk with
    | 1, _ => exact ⟨0, by omega, rfl⟩
  · subst h
    rw [hcut] at hk ⊢
    match k, hk with
    | 2, _ => exact ⟨1, by omega, rfl⟩

/-- Witness for C7: a session whose cursor rests on a block with a next
sibling; the delete trace relocates to the sibling connection then removes,
and the cut trace copies, relocates, then removes. -/
theorem delete_cut_relocate_before_remove_witness :
    curBlockOf sessionOnBlock = some blockB1 ∧
      sessionOnBlock.gestureInProgress = false ∧
      deleteCallback sessionOnBlock =
        (some true,
          [EditorAction.setCursor (moveCursorOnBlockDelete blockB1),
           EditorAction.removeBlock blockB1.id]) ∧
      cutCallback sessionOnBlock =
        (some true,
          [EditorAction.copyBlock blockB1.id,
           EditorAction.setCursor (moveCursorOnBlockDelete blockB1),
           EditorAction.removeBlock blockB1.id]) :=
  ⟨rfl, rfl,
    (delete_cut_relocate_before_remove sessionOnBlock blockB1 rfl rfl).1,
    (delete_cut_relocate_before_remove sessionOnBlock blockB1 rfl rfl).2.1⟩

theorem copyCallback_fst (workspace : NavSession) :
    (copyCallback workspace).1 = none := by
  unfold copyCallback
  cases curBlockOf workspace <;> rfl

theorem copyPrecondition_block (status : AccessibilityStatus)
    (workspace : NavSession)
    (hpre : copyPreconditionFn status workspace = true) :
    ∃ b, curBlockOf workspace = some b := by
  unfold copyPreconditionFn at hpre
  by_cases hacc :
      (isGamepadAccessibilityEnabled status workspace && !workspace.readOnly) =
        true
  · rw [if_pos hacc] at hpre
    cases hb : curBlockOf workspace
    · rw [hb] at hpre
      exact absurd hpre (by simp)
    · exact ⟨_, rfl⟩
  · rw [if_neg hacc] at hpre
    exact absurd hpre (by simp)

theorem currentCombination_up :
    currentCombination DEFAULT_AXIS_ACTIVATION_THRESHOLD upGamepad =
      GamepadCombination.UP := by decide

theorem monitorCopy_tick (status : AccessibilityStatus)
    (workspace : NavSession)
    (hact : GamepadShortcutRegistry.onActivate (regCopy status) workspace
      GamepadCombination.UP = (false, [SHORTCUT_NAMES.COPY])) :
    handleAnimationFrame (monitorCopy status workspace) 300 gamepadsUp =
      (monitorCopy status workspace, [SHORTCUT_NAMES.COPY]) := by
  have hdisp : dispatchGamepads (regCopy status)
      DEFAULT_AXIS_ACTIVATION_THRESHOLD [workspace] [0] gamepadsUp =
      (false, [SHORTCUT_NAMES.COPY]) := by
    unfold dispatchGamepads
    simp only [List.foldl_cons, List.foldl_nil, gamepadsUp]
    rw [currentCombination_up, hact]
    rfl
  unfold handleAnimationFrame
  rw [if_neg (by simp [monitorCopy])]
  rw [if_neg (by simp [monitorCopy])]
  simp only [show (monitorCopy status workspace).timeSinceLastCommandHandled =
    some 0 from rfl]
  rw [if_neg (by decide)]
  simp only [show (monitorCopy status workspace).registry = regCopy status
      from rfl,
    show (monitorCopy status workspace).axisActivationThreshold =
      DEFAULT_AXIS_ACTIVATION_THRESHOLD from rfl,
    show (monitorCopy status workspace).workspaces = [workspace] from rfl,
    show (monitorCopy status workspace).connectedGamepadIndexes = [0] from
      rfl]
  rw [hdisp]
  rfl

/-- Claim C10: whenever the precondition of the copy shortcut holds, its
callback hides the chaff and copies the block but returns undefined, so the
dispatch reports the activation unhandled (onActivate returns false with the
copy callback invoked), and a monitor tick dispatching it leaves the global
last-handled debounce timestamp unchanged. -/
theorem copy_unhandled (status : AccessibilityStatus) (workspace : NavSession)
    (hpre : copyPreconditionFn status workspace = true) :
    (∃ b, curBlockOf workspace = some b ∧
        copyCallback workspace =
          (none, [EditorAction.hideChaff, EditorAction.copyBlock b.id])) ∧
      GamepadShortcutRegistry.onActivate (regCopy status) workspace
          GamepadCombination.UP = (false, [SHORTCUT_NAMES.COPY]) ∧
      (handleAnimationFrame (monitorCopy status workspace) 300
          gamepadsUp).1.timeSinceLastCommandHandled =
        (monitorCopy status workspace).timeSinceLastCommandHandled ∧
      (handleAnimationFrame (monitorCopy status workspace) 300 gamepadsUp).2 =
        [SHORTCUT_NAMES.COPY] := by
  obtain ⟨b, hb⟩ := copyPrecondition_block status workspace hpre
  have hcb : copyCallback workspace =
      (none, [EditorAction.hideChaff, EditorAction.copyBlock b.id]) := by
    simp [copyCallback, hb]
  have hact : GamepadShortcutRegistry.onActivate (regCopy status) workspace
      GamepadCombination.UP = (false, [SHORTCUT_NAMES.COPY]) := by
    unfold GamepadShortcutRegistry.onActivate
    rw [if_neg (by decide)]
    have hbound : GamepadShortcutRegistry.getShortcutNamesByCombination
        (regCopy status) GamepadCombination.UP = [SHORTCUT_NAMES.COPY] := rfl
    rw [hbound]
    have hlk : mapGet (regCopy status).registry SHORTCUT_NAMES.COPY =
        some (copyShortcutWith status) := rfl
    simp only [GamepadShortcutRegistry.onActivateGo, hlk]
    have hpf : (copyShortcutWith status).preconditionFn =
        some (copyPreconditionFn status) := rfl
    simp only [hpf, hpre]
    have hccb : (copyShortcutWith status).callback =
        some fun w => (copyCallback w).1 := rfl
    simp only [hccb, copyCallback_fst]
    simp [GamepadShortcutRegistry.onActivateGo]
  have htick := monitorCopy_tick status workspace hact
  refine ⟨⟨b, hb, hcb⟩, hact, ?_, ?_⟩
  · rw [htick]
  · rw [htick]

/-- Witness for C10: a session with accessibility enabled whose cursor is on
a deletable movable block; the copy precondition holds yet the activation is
reported unhandled and the debounce timestamp stays at 0. -/
theorem copy_unhandled_witness :
    copyPreconditionFn statusEnabled sessionOnBlock = true ∧
      ((∃ b, curBlockOf sessionOnBlock = some b ∧
          copyCallback sessionOnBlock =
            (none, [EditorAction.hideChaff, EditorAction.copyBlock b.id])) ∧
        GamepadShortcutRegistry.onActivate (regCopy statusEnabled)
            sessionOnBlock GamepadCombination.UP =
          (false, [SHORTCUT_NAMES.COPY]) ∧
        (handleAnimationFrame (monitorCopy statusEnabled sessionOnBlock) 300
            gamepadsUp).1.timeSinceLastCommandHandled =
          (monitorCopy statusEnabled
            sessionOnBlock).timeSinceLastCommandHandled ∧
        (handleAnimationFrame (monitorCopy statusEnabled sessionOnBlock) 300
            gamepadsUp).2 = [SHORTCUT_NAMES.COPY]) :=
  ⟨rfl, copy_unhandled statusEnabled sessionOnBlock rfl⟩

theorem mem_setAdd (l : List JsStr) (x t : JsStr) :
    t ∈ setAdd l x ↔ t ∈ l ∨ t = x := by
  unfold setAdd
  split
  · rename_i h
    constructor
    · exact Or.inl
    · rintro (h1 | rfl)
      · exact h1
      · exact h
  · simp

theorem mem_addAxisIte (cond : Prop) [Decidable cond]
    (c : GamepadCombination) (tok t : JsStr) :
    (t ∈ (if cond then c.addAxis tok else c).combination) ↔
      (t ∈ c.combination ∨ (cond ∧ t = tok)) := by
  split
  · rename_i h
    simp [GamepadCombination.addAxis, mem_setAdd, h]
  · rename_i h
    simp [h]

theorem mem_buttonScan (gp : Gamepad) :
    ∀ (table : List (JsStr × Nat)) (c : GamepadCombination) (t : JsStr),
      t ∈ (buttonScan gp table c).combination ↔
        t ∈ c.combination ∨ ∃ p ∈ table, p.1 = t ∧ gp.buttons p.2 = true := by
  intro table
  induction table with
  | nil =>
    intro c t
    simp [buttonScan]
  | cons q rest ih =>
    intro c t
    obtain ⟨tok, i⟩ := q
    by_cases hb : gp.buttons i
    · rw [show buttonScan gp ((tok, i) :: rest) c =
        buttonScan gp rest (c.addButton tok) from by simp [buttonScan, hb]]
      rw [ih]
      simp only [GamepadCombination.addButton, mem_setAdd, List.mem_cons]
      constructor
      · rintro ((h1 | rfl) | ⟨p, hp, hfst, hbtn⟩)
        · exact Or.inl h1
        · exact Or.inr ⟨(t, i), Or.inl rfl, rfl, hb⟩
        · exact Or.inr ⟨p, Or.inr hp, hfst, hbtn⟩
      · rintro (h1 | ⟨p, hp | hp, hfst, hbtn⟩)
        · exact Or.inl (Or.inl h1)
        · rw [hp] at hfst
          exact Or.inl (Or.inr hfst.symm)
        · exact Or.inr ⟨p, hp, hfst, hbtn⟩
    · rw [show buttonScan gp ((tok, i) :: rest) c = buttonScan gp rest c from
        by simp [buttonScan, hb]]
      rw [ih]
      simp only [List.mem_cons]
      constructor
      · rintro (h1 | ⟨p, hp, hfst, hbtn⟩)
        · exact Or.inl h1
        · exact Or.inr ⟨p, Or.inr hp, hfst, hbtn⟩
      · rintro (h1 | ⟨p, hp | hp, hfst, hbtn⟩)
        · exact Or.inl h1
        · rw [hp] at hbtn
          exact absurd hbtn (by simpa using hb)
        · exact Or.inr ⟨p, hp, hfst, hbtn⟩

theorem mem_currentCombination (θ : ℚ) (gp : Gamepad) (t : JsStr) :
    t ∈ (currentCombination θ gp).combination ↔
      (∃ p ∈ GAMEPAD_BUTTON_TO_INDEX, p.1 = t ∧ gp.buttons p.2 = true) ∨
        (getAxisValue gp GamepadAxisType.LEFT_HORIZONTAL_LEFT < -θ ∧
          t = GamepadAxisType.LEFT_HORIZONTAL_LEFT) ∨
        (getAxisValue gp GamepadAxisType.LEFT_HORIZONTAL_RIGHT > θ ∧
          t = GamepadAxisType.LEFT_HORIZONTAL_RIGHT) ∨
        (getAxisValue gp GamepadAxisType.LEFT_VERTICAL_UP < -θ ∧
          t = GamepadAxisType.LEFT_VERTICAL_UP) ∨
        (getAxisValue gp GamepadAxisType.LEFT_VERTICAL_DOWN > θ ∧
          t = GamepadAxisType.LEFT_VERTICAL_DOWN) ∨
        (getAxisValue gp GamepadAxisType.RIGHT_HORIZONTAL_LEFT < -θ ∧
          t = GamepadAxisType.RIGHT_HORIZONTAL_LEFT) ∨
        (getAxisValue gp GamepadAxisType.RIGHT_HORIZONTAL_RIGHT > θ ∧
          t = GamepadAxisType.RIGHT_HORIZONTAL_RIGHT) ∨
        (getAxisValue gp GamepadAxisType.RIGHT_VERTICAL_UP < -θ ∧
          t = GamepadAxisType.RIGHT_VERTICAL_UP) ∨
        (getAxisValue gp GamepadAxisType.RIGHT_VERTICAL_DOWN > θ ∧
          t = GamepadAxisType.RIGHT_VERTICAL_DOWN) := by
  unfold currentCombination
  simp only [mem_addAxisIte, mem_buttonScan]
  have hempty : t ∈ GamepadCombination.empty.combination ↔ False := by
    simp [GamepadCombination.empty]
  rw [hempty]
  simp only [false_or, or_assoc]

theorem mem_cc_axis_lhl (θ : ℚ) (gp : Gamepad) :
    GamepadAxisType.LEFT_HORIZONTAL_LEFT ∈
        (currentCombination θ gp).combination ↔
      getAxisValue gp GamepadAxisType.LEFT_HORIZONTAL_LEFT < -θ := by
  rw [mem_currentCombination]
  simp +decide [GAMEPAD_BUTTON_TO_INDEX]

theorem mem_cc_axis_lhr (θ : ℚ) (gp : Gamepad) :
    GamepadAxisType.LEFT_HORIZONTAL_RIGHT ∈
        (currentCombination θ gp).combination ↔
      θ < getAxisValue gp GamepadAxisType.LEFT_HORIZONTAL_RIGHT := by
  rw [mem_currentCombination]
  simp +decide [GAMEPAD_BUTTON_TO_INDEX]

theorem mem_cc_axis_lvu (θ : ℚ) (gp : Gamepad) :
    GamepadAxisType.LEFT_VERTICAL_UP ∈
        (currentCombination θ gp).combination ↔
      getAxisValue gp GamepadAxisType.LEFT_VERTICAL_UP < -θ := by
  rw [mem_currentCombination]
  simp +decide [GAMEPAD_BUTTON_TO_INDEX]

theorem mem_cc_axis_lvd (θ : ℚ) (gp : Gamepad) :
    GamepadAxisType.LEFT_VERTICAL_DOWN ∈
        (currentCombination θ gp).combination ↔
      θ < getAxisValue gp GamepadAxisType.LEFT_VERTICAL_DOWN := by
  rw [mem_currentCombination]
  simp +decide [GAMEPAD_BUTTON_TO_INDEX]

theorem mem_cc_axis_rhl (θ : ℚ) (gp : Gamepad) :
    GamepadAxisType.RIGHT_HORIZONTAL_LEFT ∈
        (currentCombination θ gp).combination ↔
      getAxisValue gp GamepadAxisType.RIGHT_HORIZONTAL_LEFT < -θ := by
  rw [mem_currentCombination]
  simp +decide [GAMEPAD_BUTTON_TO_INDEX]

theorem mem_cc_axis_rhr (θ : ℚ) (gp : Gamepad) :
    GamepadAxisType.RIGHT_HORIZONTAL_RIGHT ∈
        (currentCombination θ gp).combination ↔
      θ < getAxisValue gp GamepadAxisType.RIGHT_HORIZONTAL_RIGHT := by
  rw [mem_currentCombination]
  simp +decide [GAMEPAD_BUTTON_TO_INDEX]

theorem mem_cc_axis_rvu (θ : ℚ) (gp : Gamepad) :
    GamepadAxisType.RIGHT_VERTICAL_UP ∈
        (currentCombination θ gp).combination ↔
      getAxisValue gp GamepadAxisType.RIGHT_VERTICAL_UP < -θ := by
  rw [mem_currentCombination]
  simp +decide [GAMEPAD_BUTTON_TO_INDEX]

theorem mem_cc_axis_rvd (θ : ℚ) (gp : Gamepad) :
    GamepadAxisType.RIGHT_VERTICAL_DOWN ∈
        (currentCombination θ gp).combination ↔
      θ < getAxisValue gp GamepadAxisType.RIGHT_VERTICAL_DOWN := by
  rw [mem_currentCombination]
  simp +decide [GAMEPAD_BUTTON_TO_INDEX]

theorem axis_pair_props (θ : ℚ) (hθ : 0 ≤ θ) (v : ℚ)
    (negMem posMem : Prop) (hneg : negMem ↔ v < -θ) (hpos : posMem ↔ θ < v) :
    ((v = -θ ∨ v = θ) → ¬negMem ∧ ¬posMem) ∧
      (v < -θ → negMem) ∧ (θ < v → posMem) ∧ ¬(negMem ∧ posMem) := by
  refine ⟨?_, fun h => hneg.mpr h, fun h => hpos.mpr h, ?_⟩
  · rintro (rfl | rfl) <;> constructor <;> intro h
    · rw [hneg] at h
      linarith
    · rw [hpos] at h
      linarith
    · rw [hneg] at h
      linarith
    · rw [hpos] at h
      linarith
  · rintro ⟨h1, h2⟩
    rw [hneg] at h1
    rw [hpos] at h2
    linarith

/-- Claim C6: for each of the four axes, an axis value exactly at the
activation threshold (either sign) activates neither directional token, a
value strictly past the threshold activates the corresponding token, and
the two directional tokens of one axis are never both set in the built
combination. -/
theorem axis_threshold_boundary (θ : ℚ) (hθ : 0 ≤ θ) (gp : Gamepad) :
    ∀ p ∈ axisPairs,
      ((gp.axes p.1 = -θ ∨ gp.axes p.1 = θ) →
        p.2.1 ∉ (currentCombination θ gp).combination ∧
          p.2.2 ∉ (currentCombination θ gp).combination) ∧
        (gp.axes p.1 < -θ →
          p.2.1 ∈ (currentCombination θ gp).combination) ∧
        (θ < gp.axes p.1 →
          p.2.2 ∈ (currentCombination θ gp).combination) ∧
        ¬(p.2.1 ∈ (currentCombination θ gp).combination ∧
          p.2.2 ∈ (currentCombination θ gp).combination) := by
  intro p hp
  simp only [axisPairs, List.mem_cons, List.not_mem_nil, or_false] at hp
  rcases hp with rfl | rfl | rfl | rfl
  · exact axis_pair_props θ hθ _ _ _ (mem_cc_axis_lhl θ gp)
      (mem_cc_axis_lhr θ gp)
  · exact axis_pair_props θ hθ _ _ _ (mem_cc_axis_lvu θ gp)
      (mem_cc_axis_lvd θ gp)
  · exact axis_pair_props θ hθ _ _ _ (mem_cc_axis_rhl θ gp)
      (mem_cc_axis_rhr θ gp)
  · exact axis_pair_props θ hθ _ _ _ (mem_cc_axis_rvu θ gp)
      (mem_cc_axis_rvd θ gp)

/-- Witness for C6: at the default threshold, a controller whose left
horizontal axis sits exactly at the threshold activates neither left stick
horizontal token. -/
theorem axis_threshold_boundary_witness :
    (0 : ℚ) ≤ DEFAULT_AXIS_ACTIVATION_THRESHOLD ∧
      GamepadAxisType.LEFT_HORIZONTAL_LEFT ∉
        (currentCombination DEFAULT_AXIS_ACTIVATION_THRESHOLD
          { buttons := fun _ => false,
            axes := fun _ => DEFAULT_AXIS_ACTIVATION_THRESHOLD }).combination ∧
      GamepadAxisType.LEFT_HORIZONTAL_RIGHT ∉
        (currentCombination DEFAULT_AXIS_ACTIVATION_THRESHOLD
          { buttons := fun _ => false,
            axes := fun _ => DEFAULT_AXIS_ACTIVATION_THRESHOLD }).combination := by
  have h := axis_threshold_boundary DEFAULT_AXIS_ACTIVATION_THRESHOLD
    (by decide)
    { buttons := fun _ => false,
      axes := fun _ => DEFAULT_AXIS_ACTIVATION_THRESHOLD }
    (0, GamepadAxisType.LEFT_HORIZONTAL_LEFT,
      GamepadAxisType.LEFT_HORIZONTAL_RIGHT)
    (by decide)
  have hb := h.1 (Or.inr rfl)
  exact ⟨by decide, hb.1, hb.2⟩
